import Mathlib

/-!
Shallow embedding of the yamusic-dl repository (Go) and verification of its
specification claims.

Bytes are modelled as `Nat` values, reduced modulo 256 where the code relies
on byte width; 32-bit machine words use explicit reduction modulo `2 ^ 32`.
Go strings are modelled as Lean `String`; the conversion of a Go string to a
byte slice is the UTF-8 encoding `utf8Bytes`. I/O effects (HTTP, file system,
interactive input) are modelled as explicit oracles and an explicit
file-system state, passed to the embedded functions as arguments.
-/

set_option maxRecDepth 20000

namespace Yamusic

/-! ### Byte and word helpers -/

/-- Big-endian byte encoding of `w` on `k` bytes. -/
def wordBytesBE (k w : Nat) : List Nat :=
  (List.range k).map (fun i => w >>> (8 * (k - 1 - i)) % 256)

/-- 32-bit right rotation. -/
def rotr32 (n x : Nat) : Nat := ((x >>> n) ||| (x <<< (32 - n))) % 4294967296

/-- UTF-8 encoding of a character sequence; this is what Go produces when it
converts a string to a byte slice. -/
def utf8Bytes : List Char → List Nat
  | [] => []
  | c :: rest =>
    let n := c.toNat
    (if n < 128 then [n]
     else if n < 2048 then [192 ||| (n >>> 6), 128 ||| (n % 64)]
     else if n < 65536 then
       [224 ||| (n >>> 12), 128 ||| (n >>> 6 % 64), 128 ||| (n % 64)]
     else
       [240 ||| (n >>> 18), 128 ||| (n >>> 12 % 64), 128 ||| (n >>> 6 % 64),
        128 ||| (n % 64)]) ++ utf8Bytes rest

/-! ### SHA-256, as crypto/sha256 computes it

The round constants and the initial hash value are computed from their
mathematical definition (fractional parts of cube and square roots of the
first primes) instead of being transcribed as tables. Structural recursion is
used throughout so that the kernel can evaluate the functions. -/

/-- Integer cube root search step: try to set bit `fuel - 1`. -/
def icbrtAux : Nat → Nat → Nat → Nat
  | 0, _, acc => acc
  | fuel + 1, n, acc =>
    let c := acc + 2 ^ fuel
    if c * c * c ≤ n then icbrtAux fuel n c else icbrtAux fuel n acc

/-- Integer cube root, adequate for inputs below `2 ^ 120`. -/
def icbrt (n : Nat) : Nat := icbrtAux 40 n 0

/-- Integer square root search step: try to set bit `fuel - 1`. -/
def isqrtAux : Nat → Nat → Nat → Nat
  | 0, _, acc => acc
  | fuel + 1, n, acc =>
    let c := acc + 2 ^ fuel
    if c * c ≤ n then isqrtAux fuel n c else isqrtAux fuel n acc

/-- Integer square root, adequate for inputs below `2 ^ 80`. -/
def isqrt (n : Nat) : Nat := isqrtAux 40 n 0

/-- The first 64 primes, sources of the SHA-256 round constants. -/
def sha256Primes : List Nat :=
  [2, 3, 5, 7, 11, 13, 17, 19, 23, 29, 31, 37, 41, 43, 47, 53,
   59, 61, 67, 71, 73, 79, 83, 89, 97, 101, 103, 107, 109, 113, 127, 131,
   137, 139, 149, 151, 157, 163, 167, 173, 179, 181, 191, 193, 197, 199, 211, 223,
   227, 229, 233, 239, 241, 251, 257, 263, 269, 271, 277, 281, 283, 293, 307, 311]

/-- SHA-256 round constants: fractional parts of cube roots of the first
64 primes, scaled by `2 ^ 32`. -/
def sha256K : List Nat := sha256Primes.map (fun p => icbrt (p <<< 96) % 4294967296)

/-- SHA-256 initial hash value: fractional parts of square roots of the first
8 primes, scaled by `2 ^ 32`. -/
def sha256H0 : List Nat :=
  [2, 3, 5, 7, 11, 13, 17, 19].map (fun p => isqrt (p <<< 64) % 4294967296)

def bsig0 (x : Nat) : Nat := rotr32 2 x ^^^ rotr32 13 x ^^^ rotr32 22 x
def bsig1 (x : Nat) : Nat := rotr32 6 x ^^^ rotr32 11 x ^^^ rotr32 25 x
def ssig0 (x : Nat) : Nat := rotr32 7 x ^^^ rotr32 18 x ^^^ (x >>> 3)
def ssig1 (x : Nat) : Nat := rotr32 17 x ^^^ rotr32 19 x ^^^ (x >>> 10)
def sha256Ch (x y z : Nat) : Nat := (x &&& y) ^^^ ((x ^^^ 4294967295) &&& z)
def sha256Maj (x y z : Nat) : Nat := (x &&& y) ^^^ (x &&& z) ^^^ (y &&& z)

/-- Message schedule: expand the 16 block words to 64 words. -/
def sha256Schedule (block : List Nat) : List Nat :=
  let w16 := (List.range 16).map (fun i =>
    block.getD (4 * i) 0 <<< 24 + block.getD (4 * i + 1) 0 <<< 16 +
    block.getD (4 * i + 2) 0 <<< 8 + block.getD (4 * i + 3) 0)
  (List.range 48).foldl (fun w _ =>
    let t := w.length
    w ++ [(ssig1 (w.getD (t - 2) 0) + w.getD (t - 7) 0 +
           ssig0 (w.getD (t - 15) 0) + w.getD (t - 16) 0) % 4294967296]) w16

/-- One round of the SHA-256 compression function on the 8-word state. -/
def sha256Round (s : List Nat) (wk : Nat × Nat) : List Nat :=
  match s with
  | [a, b, c, d, e, f, g, h] =>
    let t1 := h + bsig1 e + sha256Ch e f g + wk.2 + wk.1
    let t2 := bsig0 a + sha256Maj a b c
    [(t1 + t2) % 4294967296, a, b, c, (d + t1) % 4294967296, e, f, g]
  | s => s

/-- SHA-256 compression of one 64-byte block into the running hash. -/
def sha256Compress (h : List Nat) (block : List Nat) : List Nat :=
  let w := sha256Schedule block
  let s := (w.zip sha256K).foldl sha256Round h
  (h.zip s).map (fun p => (p.1 + p.2) % 4294967296)

/-- SHA-256 padding: append 0x80, zeros, and the 64-bit big-endian bit
length, filling to a multiple of 64 bytes. -/
def sha256Pad (msg : List Nat) : List Nat :=
  let padlen := (64 + 55 - msg.length % 64) % 64
  msg ++ [128] ++ List.replicate padlen 0 ++
    wordBytesBE 8 (msg.length * 8 % 18446744073709551616)

/-- Split a byte sequence into 64-byte blocks; structural recursion on a fuel
counter so that the kernel can evaluate it. -/
def chunks64Aux : Nat → List Nat → List (List Nat)
  | 0, _ => []
  | _, [] => []
  | fuel + 1, a :: l => ((a :: l).take 64) :: chunks64Aux fuel ((a :: l).drop 64)

/-- Split a byte sequence into 64-byte blocks. -/
def chunks64 (l : List Nat) : List (List Nat) := chunks64Aux l.length l

/-- The SHA-256 digest (32 bytes) of a byte sequence. -/
def sha256 (msg : List Nat) : List Nat :=
  let h := (chunks64 (sha256Pad msg)).foldl sha256Compress sha256H0
  h.foldr (fun w acc => wordBytesBE 4 w ++ acc) []

/-! ### HMAC-SHA256, as crypto/hmac builds it -/

/-- HMAC-SHA256 with the standard 64-byte block size. -/
def hmacSha256 (key msg : List Nat) : List Nat :=
  let k0 := if 64 < key.length then sha256 key else key
  let k1 := k0 ++ List.replicate (64 - k0.length) 0
  sha256 (k1.map (fun b => b ^^^ 92) ++ sha256 (k1.map (fun b => b ^^^ 54) ++ msg))

/-! ### Base64, as encoding/base64 StdEncoding encodes -/

/-- The standard Base64 alphabet. -/
def b64Alphabet : List Char :=
  "ABCDEFGHIJKLMNOPQRSTUVWXYZabcdefghijklmnopqrstuvwxyz0123456789+/".toList

/-- Character for a 6-bit group. -/
def b64Char (n : Nat) : Char := b64Alphabet.getD n 'A'

/-- Standard Base64 encoding with `=` padding. -/
def b64Encode : List Nat → List Char
  | a :: b :: c :: rest =>
    b64Char ((a % 256) >>> 2) :: b64Char ((a % 4) <<< 4 ||| ((b % 256) >>> 4)) ::
    b64Char ((b % 16) <<< 2 ||| ((c % 256) >>> 6)) :: b64Char (c % 64) :: b64Encode rest
  | [a, b] =>
    [b64Char ((a % 256) >>> 2), b64Char ((a % 4) <<< 4 ||| ((b % 256) >>> 4)),
     b64Char ((b % 16) <<< 2), '=']
  | [a] => [b64Char ((a % 256) >>> 2), b64Char ((a % 4) <<< 4), '=', '=']
  | [] => []

/-- `strings.TrimRight(s, "=")` on a character list: remove all trailing
`=` characters. -/
def trimRightEq (l : List Char) : List Char :=
  (l.reverse.dropWhile (fun c => c == '=')).reverse

/-! ### Signature engine: internal/crypto/crypto.go -/

/-- `strings.ReplaceAll(s, ",", "")`: drop every comma character. -/
def removeCommas (s : String) : String := ⟨s.toList.filter (fun c => c != ',')⟩

/-- `GenerateSignature` from internal/crypto/crypto.go: remove commas from
the data string, compute HMAC-SHA256 keyed by the sign key, Base64-encode,
and trim trailing `=` characters. -/
def GenerateSignature (dataString signKey : String) : String :=
  let cleaned := removeCommas dataString
  let mac := hmacSha256 (utf8Bytes signKey.toList) (utf8Bytes cleaned.toList)
  ⟨trimRightEq (b64Encode mac)⟩

/-- `GenerateSignatureFromParams` from internal/crypto/crypto.go:
concatenate ts, trackId, quality, codecs, transports in that order with no
delimiter and sign the result. -/
def GenerateSignatureFromParams (ts trackId quality codecs transports signKey : String) :
    String :=
  GenerateSignature (ts ++ trackId ++ quality ++ codecs ++ transports) signKey

/-- Reference signature definition following the wording of the
specification (section 4.1): concatenate the five fields in that exact order
with no delimiter, strip any comma characters from the result, compute
HMAC-SHA256 keyed by the key over the resulting byte string, Base64-encode
the digest, then strip trailing `=` padding characters. -/
def signSpec (ts trackID quality codecList transport key : String) : String :=
  let payload : List Char :=
    (ts ++ trackID ++ quality ++ codecList ++ transport).toList.filter (fun c => c != ',')
  ⟨trimRightEq (b64Encode (hmacSha256 (utf8Bytes key.toList) (utf8Bytes payload)))⟩

/-! ### AES block cipher (crypto/aes) and CTR mode (crypto/cipher)

The S-box is computed from its definition (multiplicative inverse in
GF(2^8) followed by the affine transform) instead of being transcribed as a
table; this matches the cipher crypto/aes implements. -/

/-- Multiply by x in GF(2^8) with the AES polynomial 0x11B. -/
def xtime (b : Nat) : Nat := if b < 128 then 2 * b else (2 * b) ^^^ 283

/-- GF(2^8) product, Russian-peasant loop over 8 bits. -/
def gfMulAux : Nat → Nat → Nat → Nat → Nat
  | 0, _, _, acc => acc
  | k + 1, a, b, acc =>
    gfMulAux k (xtime a) (b / 2) (if b % 2 = 1 then acc ^^^ a else acc)

/-- GF(2^8) product of two bytes. -/
def gfMul (a b : Nat) : Nat := gfMulAux 8 (a % 256) (b % 256) 0

/-- GF(2^8) power by iterated product. -/
def gfPow (a n : Nat) : Nat := (List.range n).foldl (fun acc _ => gfMul acc a) 1

/-- GF(2^8) inverse (0 maps to 0): a ^ 254. -/
def gfInv (a : Nat) : Nat := if a % 256 = 0 then 0 else gfPow (a % 256) 254

/-- 8-bit left rotation. -/
def rotl8 (x n : Nat) : Nat := (((x % 256) <<< n) ||| ((x % 256) >>> (8 - n))) % 256

/-- The AES S-box: multiplicative inverse followed by the affine transform. -/
def sboxByte (b : Nat) : Nat :=
  let s := gfInv b
  s ^^^ rotl8 s 1 ^^^ rotl8 s 2 ^^^ rotl8 s 3 ^^^ rotl8 s 4 ^^^ 99

/-- Big-endian word from 4 bytes. -/
def bytesToWordBE (l : List Nat) : Nat := l.foldl (fun acc b => acc * 256 + b % 256) 0

/-- Apply the S-box to each byte of a 32-bit word. -/
def subWord (w : Nat) : Nat := bytesToWordBE ((wordBytesBE 4 w).map sboxByte)

/-- Rotate a 32-bit word left by one byte. -/
def rotWordL (w : Nat) : Nat := (((w % 4294967296) <<< 8) ||| (w >>> 24)) % 4294967296

/-- Round-constant word for round j (j starting at 1). -/
def rconW (j : Nat) : Nat := gfPow 2 (j - 1) <<< 24

/-- AES key expansion to 4* (nr + 1) words. -/
def expandKey (key : List Nat) : List Nat :=
  let nk := key.length / 4
  let nr := nk + 6
  let w0 := (List.range nk).map (fun i => bytesToWordBE ((key.drop (4 * i)).take 4))
  (List.range (4 * (nr + 1) - nk)).foldl (fun w _ =>
    let i := w.length
    let temp := w.getD (i - 1) 0
    let temp :=
      if i % nk = 0 then subWord (rotWordL temp) ^^^ rconW (i / nk)
      else if 6 < nk ∧ i % nk = 4 then subWord temp
      else temp
    w ++ [w.getD (i - nk) 0 ^^^ temp]) w0

/-- Round key bytes for round r: words 4r..4r+3 in big-endian bytes
(column-major state order). -/
def roundKeyBytes (w : List Nat) (r : Nat) : List Nat :=
  (((w.drop (4 * r)).take 4).map (wordBytesBE 4)).flatten

/-- SubBytes on the 16-byte column-major state. -/
def subBytesS (st : List Nat) : List Nat := st.map sboxByte

/-- ShiftRows: row r rotates left by r; entry r + 4c comes from
r + 4 * ((c + r) mod 4). -/
def shiftRowsS (st : List Nat) : List Nat :=
  (List.range 16).map (fun i => st.getD (i % 4 + 4 * ((i / 4 + i % 4) % 4)) 0)

/-- MixColumns on one 4-byte column. -/
def mixColumn (col : List Nat) : List Nat :=
  match col with
  | [a0, a1, a2, a3] =>
    [gfMul 2 a0 ^^^ gfMul 3 a1 ^^^ a2 ^^^ a3,
     a0 ^^^ gfMul 2 a1 ^^^ gfMul 3 a2 ^^^ a3,
     a0 ^^^ a1 ^^^ gfMul 2 a2 ^^^ gfMul 3 a3,
     gfMul 3 a0 ^^^ a1 ^^^ a2 ^^^ gfMul 2 a3]
  | c => c

/-- MixColumns on the full state. -/
def mixColumnsS (st : List Nat) : List Nat :=
  ((List.range 4).map (fun c => mixColumn ((st.drop (4 * c)).take 4))).flatten

/-- AddRoundKey. -/
def addRoundKeyS (st rk : List Nat) : List Nat := st.zipWith (fun a b => a ^^^ b) rk

/-- AES block encryption of a 16-byte block (validated against the FIPS-197
vectors for all three key lengths). -/
def aesEncryptBlock (key block : List Nat) : List Nat :=
  let w := expandKey key
  let nr := key.length / 4 + 6
  let st0 := addRoundKeyS block (roundKeyBytes w 0)
  let stN := (List.range (nr - 1)).foldl (fun st r =>
    addRoundKeyS (mixColumnsS (shiftRowsS (subBytesS st))) (roundKeyBytes w (r + 1))) st0
  addRoundKeyS (shiftRowsS (subBytesS stN)) (roundKeyBytes w nr)

/-- Counter block j for the all-zero IV: 16-byte big-endian encoding of j,
as cipher.NewCTR increments the IV. -/
def counterBlockBE (j : Nat) : List Nat :=
  wordBytesBE 16 (j % 340282366920938463463374607431768211456)

/-- Byte i of the AES-CTR keystream for the all-zero IV. -/
def keystreamByte (key : List Nat) (i : Nat) : Nat :=
  (aesEncryptBlock key (counterBlockBE (i / 16))).getD (i % 16) 0

/-- XORKeyStream: XOR the data bytes with the keystream from byte index i. -/
def ctrXor (key : List Nat) : Nat → List Nat → List Nat
  | _, [] => []
  | i, b :: rest => (b ^^^ keystreamByte key i) :: ctrXor key (i + 1) rest

/-- Value of a hex digit character, as encoding/hex accepts them. -/
def hexDigitVal (c : Char) : Option Nat :=
  if '0' ≤ c ∧ c ≤ '9' then some (c.toNat - 48)
  else if 'a' ≤ c ∧ c ≤ 'f' then some (c.toNat - 87)
  else if 'A' ≤ c ∧ c ≤ 'F' then some (c.toNat - 55)
  else none

/-- hex.DecodeString: pairs of hex digits to bytes; fails on an odd length
or an invalid digit. -/
def hexDecode : List Char → Option (List Nat)
  | [] => some []
  | [_] => none
  | h :: l :: rest =>
    match hexDigitVal h, hexDigitVal l, hexDecode rest with
    | some a, some b, some tl => some ((16 * a + b) :: tl)
    | _, _, _ => none

/-- `DecryptAesCtr` from internal/crypto/crypto.go: hex-decode the key,
build the AES cipher (aes.NewCipher accepts key lengths 16, 24 and 32
bytes), and XOR the data with the CTR keystream for the all-zero IV. -/
def DecryptAesCtr (encryptedData : List Nat) (hexKey : String) : Except String (List Nat) :=
  match hexDecode hexKey.toList with
  | none => Except.error "error decoding key"
  | some key =>
    if key.length = 16 ∨ key.length = 24 ∨ key.length = 32 then
      Except.ok (ctrXor key 0 encryptedData)
    else Except.error "error creating cipher"

/-- The hex key is well formed: valid hex digits, even length, and a
decoded length supported by aes.NewCipher. -/
def ValidAesHexKey (hexKey : String) : Prop :=
  ∃ key, hexDecode hexKey.toList = some key ∧
    (key.length = 16 ∨ key.length = 24 ∨ key.length = 32)

/-! ### Filename sanitizer: internal/utils/files.go -/

/-- The characters the regular expression of CleanFileName matches. -/
def invalidFileChars : List Char := ['\\', '/', ':', '*', '?', '"', '<', '>', '|']

/-- unicode.IsSpace, the predicate strings.TrimSpace trims by. -/
def goIsSpace (c : Char) : Bool :=
  let n := c.toNat
  n == 9 || n == 10 || n == 11 || n == 12 || n == 13 || n == 32 ||
  n == 133 || n == 160 || n == 5760 || (8192 ≤ n && n ≤ 8202) ||
  n == 8232 || n == 8233 || n == 8239 || n == 8287 || n == 12288

/-- strings.TrimSpace on a character list. -/
def trimSpaceL (l : List Char) : List Char :=
  ((l.dropWhile goIsSpace).reverse.dropWhile goIsSpace).reverse

/-- The character replacement step of CleanFileName. -/
def replaceInvalid (l : List Char) : List Char :=
  l.map (fun c => if invalidFileChars.contains c then '_' else c)

/-- `CleanFileName` from internal/utils/files.go: replace every character
matching the class backslash slash colon star question quote less greater
pipe with an underscore, trim surrounding white space, and fall back to
"Unknown" when nothing remains. -/
def CleanFileName (name : String) : String :=
  let clean := trimSpaceL (replaceInvalid name.toList)
  if clean = [] then "Unknown" else ⟨clean⟩

/-! ### Quality mapping: pkg/yamusic/client.go GetAPIQuality

The Go enumerations DownloadQuality and TrackQuality are string types; the
constants are "min", "normal", "max" and "lq", "nq", "lossless". -/

/-- `Client.GetAPIQuality`: the switch over the caller quality. -/
def GetAPIQuality (quality : String) : String :=
  if quality = "min" then "lq"
  else if quality = "normal" then "nq"
  else if quality = "max" then "lossless"
  else "lossless"

/-! ### Authentication session: cmd/authorizer/main.go

The HTTP exchange and JSON decoding are oracles: `send` answers a POST of
form fields with a raw body (or a transport error) and the parse functions
model json.Unmarshal on that body. -/

/-- The session fields the embedded operations read (the cookie jar, the
HTTP client and the logger carry no data the claims mention). -/
structure AuthSession where
  csrfToken : String
  trackID : String
  availableAuthMethods : List String
  oauthState : String

/-- Response model for commit_password. -/
structure AuthPasswordResponse where
  status : String
  state : String
  redirectURL : String
deriving DecidableEq

/-- Response model for challenge/submit (the nested hint fields carry no
data the claims mention). -/
structure ChallengeResponse where
  status : String
  challengeType : String
deriving DecidableEq

/-- Oracle for the passport HTTP exchanges and their JSON decoding. -/
structure PassportNet where
  send : String → List (String × String) → Except String String
  parsePassword : String → Except String AuthPasswordResponse
  parseChallenge : String → Except String ChallengeResponse

def ClientID : String := "97fe03033fa34407ac9bcf91d5afed5b"
def Origin : String := "music_desktop"
def Language : String := "ru"
def URLCommitPassword : String :=
  "https://passport.yandex.ru/registration-validations/auth/multi_step/commit_password"
def URLChallengeSubmit : String :=
  "https://passport.yandex.ru/registration-validations/auth/challenge/submit"

/-- url.QueryEscape of the RedirectURI constant, precomputed. -/
def RedirectURIEscaped : String :=
  "music-application%3A%2F%2Fdesktop%2Foauth%3FredirectUri%3D%26language%3Dru"

/-- `AuthSession.GetRetpathURL`: the OAuth redirect URL built from the
constants and the session state value. -/
def GetRetpathURL (s : AuthSession) : String :=
  "https://oauth.yandex.ru/authorize?response_type=token&display=popup&scope=music%3Acontent&scope=music%3Aread&scope=music%3Awrite&client_id=" ++
  ClientID ++ "&redirect_uri=" ++ RedirectURIEscaped ++ "&state=" ++ s.oauthState ++
  "&origin=" ++ Origin ++ "&language=" ++ Language

/-- `AuthSession.SubmitPassword`: build the form from the session fields as
they are, POST it, reject an empty or `{}` body, and decode the JSON. The
source performs no check on csrfToken or trackID before sending. -/
def SubmitPassword (net : PassportNet) (s : AuthSession) (password : String) :
    Except String AuthPasswordResponse :=
  let data := [("csrf_token", s.csrfToken), ("track_id", s.trackID),
               ("password", password), ("retpath", GetRetpathURL s), ("lang", Language)]
  match net.send URLCommitPassword data with
  | Except.error e => Except.error ("request failed: " ++ e)
  | Except.ok body =>
    if body = "" || body = "{}" then
      Except.error "empty response received, possible password error"
    else
      match net.parsePassword body with
      | Except.error e => Except.error ("failed to parse response: " ++ e)
      | Except.ok r => Except.ok r

/-- `AuthSession.SubmitChallenge`: build the form from the session fields as
they are, POST it, and decode the JSON (this one has no empty-body check).
The source performs no check on csrfToken or trackID before sending. -/
def SubmitChallenge (net : PassportNet) (s : AuthSession) :
    Except String ChallengeResponse :=
  let data := [("csrf_token", s.csrfToken), ("track_id", s.trackID)]
  match net.send URLChallengeSubmit data with
  | Except.error e => Except.error ("request failed: " ++ e)
  | Except.ok body =>
    match net.parseChallenge body with
    | Except.error e => Except.error ("failed to parse response: " ++ e)
    | Except.ok r => Except.ok r

/-! ### Token resolution: cmd/authorizer/main.go GetToken -/

/-- An HTTP response as GetToken inspects it: status code, Location header
and page body. -/
structure HttpResp where
  statusCode : Nat
  location : String
  body : String

/-- First index of `needle` in `hay`, as strings.Index. -/
def findSubstr (hay needle : List Char) : Option Nat :=
  (List.range (hay.length + 1)).find? (fun i => needle.isPrefixOf (hay.drop i))

/-- strings.Contains. -/
def containsSub (hay needle : String) : Bool :=
  (findSubstr hay.toList needle.toList).isSome

/-- The fragment of a URL: everything after the first `#` (percent
unescaping is not modelled; the token values this flow extracts contain no
escapes). -/
def urlFragment (u : String) : String :=
  ⟨(u.toList.dropWhile (fun c => c != '#')).drop 1⟩

/-- url.ParseQuery followed by Values.Get: split on `&`, split each pair at
the first `=`, return the first value bound to the key (empty string when
absent). -/
def queryGet (query key : String) : String :=
  match (query.splitOn "&").find? (fun p => (p.splitOn "=").headD "" == key) with
  | some p => String.intercalate "=" ((p.splitOn "=").tail)
  | none => ""

/-- The body-scanning branch of GetToken: find `access_token=`, take the
characters after it up to the next `&` or the end of the body. -/
def getTokenFromBody (bodyStr : String) : Except String String :=
  match findSubstr bodyStr.toList "access_token=".toList with
  | none => Except.error "access token not found"
  | some startIdx =>
    let rest := bodyStr.toList.drop startIdx
    let endIdx :=
      match findSubstr rest ['&'] with
      | some e => e
      | none => bodyStr.toList.length - startIdx
    Except.ok ⟨(rest.drop 13).take (endIdx - 13)⟩

/-- `AuthSession.GetToken`, step-indexed: the source recurses on every
redirect whose Location lacks `access_token=`; the fuel counts the redirect
hops the model is willing to follow and `none` means the fuel was exhausted
with the source still recursing. The source itself has no such bound. -/
def getTokenFuel (net : String → Except String HttpResp) :
    Nat → String → Option (Except String String)
  | 0, _ => none
  | fuel + 1, retpath =>
    match net retpath with
    | Except.error e => some (Except.error ("request failed: " ++ e))
    | Except.ok resp =>
      if resp.statusCode = 302 then
        if containsSub resp.location "access_token=" then
          some (Except.ok (queryGet (urlFragment resp.location) "access_token"))
        else
          getTokenFuel net fuel resp.location
      else
        some (getTokenFromBody resp.body)

/-- A server that answers every request with HTTP 302 and a Location that
never contains `access_token=`: an infinite redirect chain. -/
def loopNet : String → Except String HttpResp :=
  fun _ => Except.ok ⟨302, "https://passport.yandex.ru/auth/loop", ""⟩

/-! ### Download pipeline: pkg/yamusic/client.go DownloadTrack

The file system is a characteristic function of the set of existing paths;
every fallible I/O step is an oracle field. The metadata extraction from the
JSON maps is abstracted to the title, artist list and album list it
produces. -/

/-- The file system: which paths exist. -/
def FS : Type := String → Bool

/-- Create or delete a path. -/
def fsSet (fs : FS) (p : String) (v : Bool) : FS :=
  fun q => if q = p then v else fs q

/-- Metadata as the extraction loops of DownloadTrack leave it. -/
structure TrackMeta where
  title : Option String
  artists : List String
  albums : List String

/-- The nested downloadInfo object: url and key may each be absent. -/
structure DLInfo where
  url : Option String
  key : Option String

/-- Oracle for every I/O step of DownloadTrack. -/
structure MusicEnv where
  trackInfo : Except String TrackMeta
  fallbackInfo : String × String × String
  downloadInfo : String → Except String DLInfo
  uuid : String
  getwd : Except String String
  mkdir : Except String Unit
  httpGetStatus : Except String Nat
  createTemp : Except String Unit
  copyBody : Except String Unit
  readEncrypted : Except String (List Nat)
  writeOutput : Except String Unit

/-- The deferred cleanup of DownloadTrack: if the temporary encrypted file
still exists, remove it. -/
def cleanupTemp (encryptedPath : String) (fs : FS) : FS :=
  if fs encryptedPath then fsSet fs encryptedPath false else fs

/-- The filename format of DownloadTrack:
Title - Artists (Albums) [trackID].m4a, each component sanitized. -/
def trackFileName (title artist albumsStr trackID : String) : String :=
  CleanFileName title ++ " - " ++ CleanFileName artist ++ " (" ++
  CleanFileName albumsStr ++ ") [" ++ trackID ++ "].m4a"

/-- The tail of DownloadTrack, from the directory resolution to the final
write; the deferred cleanup is already registered when this part runs. -/
def downloadTrackCore (env : MusicEnv) (decryptionKey encryptedPath outputDir fileName : String)
    (fs : FS) : Except String String × FS :=
  match (if outputDir = "" then env.getwd else Except.ok outputDir) with
  | Except.error e => (Except.error ("error getting current directory: " ++ e), fs)
  | Except.ok dir =>
    match env.mkdir with
    | Except.error e => (Except.error ("error creating directory: " ++ e), fs)
    | Except.ok _ =>
      let outputPath := dir ++ "/" ++ fileName
      match env.httpGetStatus with
      | Except.error e => (Except.error ("error downloading file: " ++ e), fs)
      | Except.ok status =>
        if status ≠ 200 then (Except.error "error downloading file, status not OK", fs)
        else
          match env.createTemp with
          | Except.error e => (Except.error ("error creating temporary file: " ++ e), fs)
          | Except.ok _ =>
            let fs1 := fsSet fs encryptedPath true
            match env.copyBody with
            | Except.error e => (Except.error ("error saving encrypted file: " ++ e), fs1)
            | Except.ok _ =>
              match env.readEncrypted with
              | Except.error e => (Except.error ("error reading encrypted file: " ++ e), fs1)
              | Except.ok encryptedData =>
                match DecryptAesCtr encryptedData decryptionKey with
                | Except.error e => (Except.error ("error decrypting file: " ++ e), fs1)
                | Except.ok decrypted =>
                  match env.writeOutput with
                  | Except.error e =>
                    (Except.error ("error saving decrypted file: " ++ e), fs1)
                  | Except.ok _ =>
                    let _ := decrypted
                    (Except.ok outputPath, fsSet fs1 outputPath true)

/-- `Client.DownloadTrack`: metadata, filename, download info, temporary
encrypted file, decryption, final write; the deferred cleanup of the
temporary file wraps every exit from `downloadTrackCore`. Early returns
before the temporary path is chosen do not run the cleanup, as in the
source. -/
def DownloadTrack (env : MusicEnv) (trackID quality outputDir : String) (fs : FS) :
    Except String String × FS :=
  match env.trackInfo with
  | Except.error e => (Except.error e, fs)
  | Except.ok meta =>
    let title0 := meta.title.getD "Unknown"
    let artist0 := if meta.artists ≠ [] then String.intercalate " & " meta.artists
                   else "Unknown"
    let albums0 := if meta.albums ≠ [] then String.intercalate ", " meta.albums
                   else "Unknown"
    let needFb := title0 = "Unknown" ∨ artist0 = "Unknown" ∨
                  (meta.albums = [] ∧ albums0 = "Unknown")
    let fb := env.fallbackInfo
    let title := if needFb ∧ title0 = "Unknown" ∧ fb.1 ≠ "" then fb.1 else title0
    let artist := if needFb ∧ artist0 = "Unknown" ∧ fb.2.1 ≠ "" then fb.2.1 else artist0
    let albumsStr := if needFb ∧ albums0 = "Unknown" ∧ fb.2.2 ≠ "" then fb.2.2 else albums0
    let fileName := trackFileName title artist albumsStr trackID
    match env.downloadInfo (GetAPIQuality quality) with
    | Except.error e => (Except.error e, fs)
    | Except.ok di =>
      match di.url with
      | none => (Except.error "download URL not found", fs)
      | some _fileURL =>
        match di.key with
        | none => (Except.error "decryption key not found", fs)
        | some decryptionKey =>
          let encryptedPath := "encrypted_" ++ env.uuid ++ ".raw"
          let res := downloadTrackCore env decryptionKey encryptedPath outputDir fileName fs
          (res.1, cleanupTemp encryptedPath res.2)

end Yamusic

namespace Yamusic

/-! ### Helper lemmas -/

/-- XOR with the same keystream twice gives the data back. -/
theorem ctrXor_ctrXor (key : List Nat) (i : Nat) (data : List Nat) :
    ctrXor key i (ctrXor key i data) = data := by
  induction data generalizing i with
  | nil => rfl
  | cons b rest ih =>
    simp [ctrXor, ih, Nat.xor_assoc]

/-- The CTR XOR preserves the length. -/
theorem ctrXor_length (key : List Nat) (i : Nat) (data : List Nat) :
    (ctrXor key i data).length = data.length := by
  induction data generalizing i with
  | nil => rfl
  | cons b rest ih => simp [ctrXor, ih]

/-- Characterization of the successful runs of DecryptAesCtr. -/
theorem DecryptAesCtr_ok_iff (data : List Nat) (hexKey : String) (out : List Nat) :
    DecryptAesCtr data hexKey = Except.ok out ↔
      ∃ key, hexDecode hexKey.toList = some key ∧
        (key.length = 16 ∨ key.length = 24 ∨ key.length = 32) ∧
        out = ctrXor key 0 data := by
  unfold DecryptAesCtr
  cases hd : hexDecode hexKey.toList with
  | none => simp
  | some key =>
    by_cases hl : key.length = 16 ∨ key.length = 24 ∨ key.length = 32
    · simp [hl, eq_comm]
    · simp [hl]

end Yamusic

open Yamusic

/-- C1: the signature engine is a pure function equal to the reference
definition of the spec (concatenate the five fields in order with no
delimiter, strip commas, HMAC-SHA256 with the sign key, standard Base64,
strip trailing padding); on the documented inputs it returns exactly
dIS2WrOe5DP9DOAgm6OGu68yb4hfD0DoQj/mu4vVaGc, and repeated calls on
identical inputs return the identical signature. -/
theorem C1_signature_reference_and_vector :
    (∀ ts trackId quality codecs transports signKey : String,
        GenerateSignatureFromParams ts trackId quality codecs transports signKey =
          signSpec ts trackId quality codecs transports signKey) ∧
    GenerateSignatureFromParams "1750200603" "138562777" "lossless"
        "flac,flac-mp4,mp3,aac,he-aac,aac-mp4,he-aac-mp4" "encraw" "p93jhgh689SBReK6ghtw62" =
      "dIS2WrOe5DP9DOAgm6OGu68yb4hfD0DoQj/mu4vVaGc" ∧
    (∀ ts trackId quality codecs transports signKey : String,
        GenerateSignatureFromParams ts trackId quality codecs transports signKey =
          GenerateSignatureFromParams ts trackId quality codecs transports signKey) :=
  ⟨fun _ _ _ _ _ _ => rfl, by decide, fun _ _ _ _ _ _ => rfl⟩

/-- C5: signatures of a data string with embedded commas equal signatures of
the same string with commas pre-removed. -/
theorem C5_comma_stripping (s k : String) :
    GenerateSignature s k = GenerateSignature (removeCommas s) k := by
  simp [GenerateSignature, removeCommas, List.filter_filter]

/-- C6: decryption with the fixed all-zero IV is an involution: applying
DecryptAesCtr twice with the same key returns the original bytes. -/
theorem C6_ctr_involution (data : List Nat) (hexKey : String) (enc : List Nat)
    (h : DecryptAesCtr data hexKey = Except.ok enc) :
    DecryptAesCtr enc hexKey = Except.ok data := by
  obtain ⟨key, hk, hl, rfl⟩ := (DecryptAesCtr_ok_iff data hexKey enc).mp h
  exact (DecryptAesCtr_ok_iff _ hexKey data).mpr
    ⟨key, hk, hl, (ctrXor_ctrXor key 0 data).symm⟩

/-- C6 witness: the involution at the all-zero 16-byte key and a concrete
ciphertext. -/
theorem C6_ctr_involution_witness :
    DecryptAesCtr [5, 7, 9] "00000000000000000000000000000000" =
      Except.ok (ctrXor [0, 0, 0, 0, 0, 0, 0, 0, 0, 0, 0, 0, 0, 0, 0, 0] 0 [5, 7, 9]) ∧
    DecryptAesCtr (ctrXor [0, 0, 0, 0, 0, 0, 0, 0, 0, 0, 0, 0, 0, 0, 0, 0] 0 [5, 7, 9])
      "00000000000000000000000000000000" = Except.ok [5, 7, 9] :=
  ⟨rfl, C6_ctr_involution [5, 7, 9] "00000000000000000000000000000000" _ rfl⟩

/-- C7: DecryptAesCtr succeeds with an output of the same length as the
input exactly when the hex key is valid hex of a supported AES key length;
otherwise it returns an error. -/
theorem C7_decrypt_total_on_valid_keys (data : List Nat) (hexKey : String) :
    (∃ out, DecryptAesCtr data hexKey = Except.ok out ∧ out.length = data.length) ↔
      ValidAesHexKey hexKey := by
  constructor
  · rintro ⟨out, h, -⟩
    obtain ⟨key, hk, hl, rfl⟩ := (DecryptAesCtr_ok_iff data hexKey out).mp h
    exact ⟨key, hk, hl⟩
  · rintro ⟨key, hk, hl⟩
    exact ⟨ctrXor key 0 data, (DecryptAesCtr_ok_iff data hexKey _).mpr ⟨key, hk, hl, rfl⟩,
      ctrXor_length key 0 data⟩

/-- C8: the quality mapping is a fixed total function: min to lq, normal to
nq, max to lossless, and every other value to lossless. -/
theorem C8_quality_mapping :
    GetAPIQuality "min" = "lq" ∧ GetAPIQuality "normal" = "nq" ∧
    GetAPIQuality "max" = "lossless" ∧
    ∀ q : String, q ≠ "min" → q ≠ "normal" → q ≠ "max" → GetAPIQuality q = "lossless" := by
  refine ⟨by decide, by decide, by decide, ?_⟩
  intro q h1 h2 h3
  simp [GetAPIQuality, h1, h2, h3]

/-- C8 witness: the mapping at a concrete unrecognized quality value. -/
theorem C8_quality_mapping_witness : GetAPIQuality "ultra" = "lossless" :=
  C8_quality_mapping.2.2.2 "ultra" (by decide) (by decide) (by decide)

namespace Yamusic

/-- Every alphabet index below 64 yields an alphabet character. -/
theorem b64Char_mem {n : Nat} (h : n < 64) : b64Char n ∈ b64Alphabet := by
  have hlen : b64Alphabet.length = 64 := rfl
  unfold b64Char
  rw [List.getD_eq_getElem b64Alphabet 'A' (by omega)]
  exact List.getElem_mem _

/-- The padding character is not in the alphabet. -/
theorem eq_not_mem_alphabet : ('=' : Char) ∉ b64Alphabet := by decide

/-- A Base64 encoding is alphabet characters followed by at most two
trailing padding characters. -/
theorem b64_structure (l : List Nat) :
    ∃ body pad, b64Encode l = body ++ pad ∧ (∀ c ∈ body, c ∈ b64Alphabet) ∧
      (pad = [] ∨ pad = ['='] ∨ pad = ['=', '=']) := by
  induction l using b64Encode.induct with
  | case1 a b c rest ih =>
    obtain ⟨body, pad, henc, hmem, hpad⟩ := ih
    refine ⟨b64Char ((a % 256) >>> 2) :: b64Char ((a % 4) <<< 4 ||| ((b % 256) >>> 4)) ::
      b64Char ((b % 16) <<< 2 ||| ((c % 256) >>> 6)) :: b64Char (c % 64) :: body, pad, ?_, ?_, hpad⟩
    · simp [b64Encode, henc]
    · intro x hx
      simp only [List.mem_cons] at hx
      rcases hx with rfl | rfl | rfl | rfl | hx
      · exact b64Char_mem (by rw [Nat.shiftRight_eq_div_pow]; omega)
      · exact b64Char_mem (Nat.or_lt_two_pow (n := 6)
          (by rw [Nat.shiftLeft_eq]; omega) (by rw [Nat.shiftRight_eq_div_pow]; omega))
      · exact b64Char_mem (Nat.or_lt_two_pow (n := 6)
          (by rw [Nat.shiftLeft_eq]; omega) (by rw [Nat.shiftRight_eq_div_pow]; omega))
      · exact b64Char_mem (by omega)
      · exact hmem x hx
  | case2 a b =>
    refine ⟨[b64Char ((a % 256) >>> 2), b64Char ((a % 4) <<< 4 ||| ((b % 256) >>> 4)),
      b64Char ((b % 16) <<< 2)], ['='], rfl, ?_, Or.inr (Or.inl rfl)⟩
    intro x hx
    simp only [List.mem_cons, List.not_mem_nil, or_false] at hx
    rcases hx with rfl | rfl | rfl
    · exact b64Char_mem (by rw [Nat.shiftRight_eq_div_pow]; omega)
    · exact b64Char_mem (Nat.or_lt_two_pow (n := 6)
        (by rw [Nat.shiftLeft_eq]; omega) (by rw [Nat.shiftRight_eq_div_pow]; omega))
    · exact b64Char_mem (by rw [Nat.shiftLeft_eq]; omega)
  | case3 a =>
    refine ⟨[b64Char ((a % 256) >>> 2), b64Char ((a % 4) <<< 4)], ['=', '='], rfl, ?_,
      Or.inr (Or.inr rfl)⟩
    intro x hx
    simp only [List.mem_cons, List.not_mem_nil, or_false] at hx
    rcases hx with rfl | rfl
    · exact b64Char_mem (by rw [Nat.shiftRight_eq_div_pow]; omega)
    · exact b64Char_mem (by rw [Nat.shiftLeft_eq]; omega)
  | case4 => exact ⟨[], [], rfl, by simp, Or.inl rfl⟩

/-- After trimming the trailing padding, no padding character remains in a
Base64 encoding. -/
theorem trimmed_b64_no_eq (bytes : List Nat) :
    ('=' : Char) ∉ trimRightEq (b64Encode bytes) := by
  obtain ⟨body, pad, henc, hmem, hpad⟩ := b64_structure bytes
  have hbody : ('=' : Char) ∉ body.reverse := by
    intro hb; exact eq_not_mem_alphabet (hmem _ (List.mem_reverse.mp hb))
  have step : ∀ m : List Char, ('=' : Char) ∈ m.dropWhile (fun c => c == '=') → '=' ∈ m :=
    fun m => (List.dropWhile_sublist _).mem
  unfold trimRightEq
  rw [henc, List.reverse_append]
  intro hmm
  rw [List.mem_reverse] at hmm
  rcases hpad with rfl | rfl | rfl
  · rw [List.reverse_nil, List.nil_append] at hmm
    exact hbody (step _ hmm)
  · simp only [List.reverse_cons, List.reverse_nil, List.nil_append, List.cons_append,
      List.dropWhile_cons, beq_self_eq_true, if_true] at hmm
    exact hbody (step _ hmm)
  · simp only [List.reverse_cons, List.reverse_nil, List.nil_append, List.cons_append,
      List.dropWhile_cons, beq_self_eq_true, if_true] at hmm
    exact hbody (step _ hmm)

end Yamusic

/-- A character list not holding a character reports contains = false. -/
theorem contains_eq_false_of_not_mem (l : List Char) (c : Char) (h : c ∉ l) :
    l.contains c = false := by
  simpa using h

/-- The character list of a string built from a character list. -/
theorem toList_mk (l : List Char) : (⟨l⟩ : String).toList = l := rfl

/-- C9: the signature string contains no padding character: trailing Base64
padding is stripped and the standard alphabet provides no other occurrence
of it. -/
theorem C9_signature_no_padding (dataString signKey : String) :
    (GenerateSignature dataString signKey).toList.contains '=' = false := by
  have heq : GenerateSignature dataString signKey =
      ⟨trimRightEq (b64Encode (hmacSha256 (utf8Bytes signKey.toList)
        (utf8Bytes (removeCommas dataString).toList)))⟩ := rfl
  rw [heq, toList_mk]
  exact contains_eq_false_of_not_mem _ _ (trimmed_b64_no_eq _)

namespace Yamusic

/-- Characters surviving the trim are characters of the original list. -/
theorem mem_of_mem_trimSpaceL {c : Char} {l : List Char} (h : c ∈ trimSpaceL l) : c ∈ l := by
  unfold trimSpaceL at h
  rw [List.mem_reverse] at h
  have h1 := (List.dropWhile_sublist _).mem h
  rw [List.mem_reverse] at h1
  exact (List.dropWhile_sublist _).mem h1

end Yamusic

/-- C10: CleanFileName always returns a non-empty string containing none of
the invalid filename characters, and returns "Unknown" exactly on inputs
that are empty or all white space after replacement. -/
theorem C10_clean_filename (name : String) :
    CleanFileName name ≠ "" ∧
    (∀ c ∈ (CleanFileName name).toList, c ∉ invalidFileChars) ∧
    (trimSpaceL (replaceInvalid name.toList) = [] → CleanFileName name = "Unknown") := by
  unfold CleanFileName
  by_cases h : trimSpaceL (replaceInvalid name.toList) = []
  · rw [if_pos h]
    exact ⟨by decide, by decide, fun _ => rfl⟩
  · rw [if_neg h]
    refine ⟨?_, ?_, fun hc => absurd hc h⟩
    · intro heq
      apply h
      have := congrArg String.toList heq
      rw [toList_mk] at this
      simpa using this
    · intro c hc
      rw [toList_mk] at hc
      have hc2 := mem_of_mem_trimSpaceL hc
      unfold replaceInvalid at hc2
      obtain ⟨a, -, rfl⟩ := List.mem_map.mp hc2
      cases hb : invalidFileChars.contains a with
      | true => simp [hb]; decide
      | false =>
        simp only [hb, Bool.false_eq_true, if_false]
        simpa using hb

/-- C10 witness: a concrete input with an invalid character, and a concrete
all-space input. -/
theorem C10_clean_filename_witness :
    CleanFileName "a<b" ≠ "" ∧ 'a' ∉ invalidFileChars ∧ CleanFileName "  " = "Unknown" :=
  ⟨(C10_clean_filename "a<b").1,
   (C10_clean_filename "a<b").2.1 'a' (by decide),
   (C10_clean_filename "  ").2.2 (by decide)⟩

namespace Yamusic

/-- A passport oracle whose every exchange succeeds: the transport returns
the body "X" and the JSON decoding succeeds. -/
def netAlwaysOk : PassportNet where
  send := fun _ _ => Except.ok "X"
  parsePassword := fun _ => Except.ok ⟨"ok", "", ""⟩
  parseChallenge := fun _ => Except.ok ⟨"ok", "push_2fa"⟩

/-- A session in the state before the CSRF token and the track ID are
acquired: both fields still empty. -/
def emptySession : AuthSession := ⟨"", "", [], ""⟩

end Yamusic

/-- C2 counterexample: with an empty csrfToken and an empty trackID, both
SubmitPassword and SubmitChallenge proceed and succeed — neither rejects the
call as a precondition violation. -/
theorem C2_counterexample_no_precondition :
    emptySession.csrfToken = "" ∧ emptySession.trackID = "" ∧
    SubmitPassword netAlwaysOk emptySession "secret" = Except.ok ⟨"ok", "", ""⟩ ∧
    SubmitChallenge netAlwaysOk emptySession = Except.ok ⟨"ok", "push_2fa"⟩ :=
  ⟨rfl, rfl, rfl, rfl⟩

/-- C2 amended: SubmitPassword and SubmitChallenge perform no precondition
check on csrfToken or trackID; whatever the session state, they send the
form built from the fields as they are and succeed whenever the transport
and the JSON decoding succeed (for SubmitPassword, whenever the body is
also neither empty nor the empty object). -/
theorem C2_amended_no_state_check (net : PassportNet) (s : AuthSession)
    (password body body2 : String) (r : AuthPasswordResponse) (r2 : ChallengeResponse) :
    (net.send URLCommitPassword [("csrf_token", s.csrfToken), ("track_id", s.trackID),
        ("password", password), ("retpath", GetRetpathURL s), ("lang", Language)] =
          Except.ok body →
      body ≠ "" → body ≠ "{}" → net.parsePassword body = Except.ok r →
      SubmitPassword net s password = Except.ok r) ∧
    (net.send URLChallengeSubmit [("csrf_token", s.csrfToken), ("track_id", s.trackID)] =
          Except.ok body2 →
      net.parseChallenge body2 = Except.ok r2 →
      SubmitChallenge net s = Except.ok r2) := by
  constructor
  · intro hsend hb1 hb2 hparse
    unfold SubmitPassword
    dsimp only
    rw [hsend]
    simp [hb1, hb2, hparse]
  · intro hsend hparse
    unfold SubmitChallenge
    dsimp only
    rw [hsend]
    simp [hparse]

/-- C2 witness: the amended statement applied at the concrete empty session
and the always-successful oracle. -/
theorem C2_amended_no_state_check_witness :
    SubmitPassword netAlwaysOk emptySession "secret" = Except.ok ⟨"ok", "", ""⟩ ∧
    SubmitChallenge netAlwaysOk emptySession = Except.ok ⟨"ok", "push_2fa"⟩ :=
  ⟨(C2_amended_no_state_check netAlwaysOk emptySession "secret" "X" "X"
      ⟨"ok", "", ""⟩ ⟨"ok", "push_2fa"⟩).1 rfl (by decide) (by decide) rfl,
   (C2_amended_no_state_check netAlwaysOk emptySession "secret" "X" "X"
      ⟨"ok", "", ""⟩ ⟨"ok", "push_2fa"⟩).2 rfl rfl⟩

/-- C3: against a server that redirects forever without ever producing
access_token=, GetToken never returns: for every recursion-depth budget the
step-indexed evaluation exhausts its fuel, because the source recursion
carries no hop cap. -/
theorem C3_gettoken_never_returns_on_loop (fuel : Nat) (retpath : String) :
    getTokenFuel loopNet fuel retpath = none := by
  induction fuel generalizing retpath with
  | zero => rfl
  | succ n ih =>
    have hc : containsSub "https://passport.yandex.ru/auth/loop" "access_token=" = false := by
      decide
    simp [getTokenFuel, loopNet, hc, ih]

namespace Yamusic

/-- The deferred cleanup leaves no temporary file behind. -/
theorem cleanupTemp_removes (p : String) (fs : FS) : cleanupTemp p fs p = false := by
  unfold cleanupTemp
  cases h : fs p with
  | false => simp [h]
  | true => simp [h, fsSet]

/-- An environment in which every step of the download succeeds. -/
def envAllOk : MusicEnv where
  trackInfo := Except.ok ⟨some "Tit", ["Art"], ["Alb"]⟩
  fallbackInfo := ("", "", "")
  downloadInfo := fun _ => Except.ok ⟨some "u", some "00000000000000000000000000000000"⟩
  uuid := "u1"
  getwd := Except.ok "wd"
  mkdir := Except.ok ()
  httpGetStatus := Except.ok 200
  createTemp := Except.ok ()
  copyBody := Except.ok ()
  readEncrypted := Except.ok []
  writeOutput := Except.ok ()

end Yamusic

/-- C4: on every exit path of DownloadTrack the temporary encrypted artifact
is absent from the final file system, provided it did not exist beforehand;
in particular every path that creates it also removes it. -/
theorem C4_temp_file_removed (env : MusicEnv) (trackID quality outputDir : String) (fs : FS)
    (h : fs ("encrypted_" ++ env.uuid ++ ".raw") = false) :
    (DownloadTrack env trackID quality outputDir fs).2
      ("encrypted_" ++ env.uuid ++ ".raw") = false := by
  unfold DownloadTrack
  cases hti : env.trackInfo with
  | error e => simp only [hti]; exact h
  | ok meta =>
    simp only [hti]
    cases hdi : env.downloadInfo (GetAPIQuality quality) with
    | error e => simp only [hdi]; exact h
    | ok di =>
      simp only [hdi]
      cases hurl : di.url with
      | none => simp only [hurl]; exact h
      | some u =>
        simp only [hurl]
        cases hkey : di.key with
        | none => simp only [hkey]; exact h
        | some kk => simp only [hkey]; exact cleanupTemp_removes _ _

/-- C4 witness: the cleanup obligation at a concrete all-success
environment starting from an empty file system. -/
theorem C4_temp_file_removed_witness :
    (DownloadTrack envAllOk "tid" "max" "out" (fun _ => false)).2
      ("encrypted_" ++ envAllOk.uuid ++ ".raw") = false :=
  C4_temp_file_removed envAllOk "tid" "max" "out" (fun _ => false) rfl
